import Mathlib

/-!
Verification of the metrics cron job of `packages/cron/src/jobs/metrics.js`.

The development shallowly embeds the source file: each JavaScript function
becomes a Lean function of the same name; database handles become explicit
query-result environments; the writes performed on the read-write database
become an explicit list of write events; a thrown JavaScript error becomes
an `Option`/`Except` error value; the `debug` log and `console.error`
streams become explicit lists.
-/

set_option autoImplicit false

namespace Metrics

/-- A value held in a database row or passed to a query parameter.  The
source reads a single aggregate column `total` per row; the pg driver can
deliver it as a number, a string (for `NUMERIC`/`COUNT` columns) or `NULL`
(for `SUM` over an empty table).  Numbers are modelled as unbounded `Int`,
which is faithful for the integral aggregate values involved here. -/
inductive Value where
  | num (n : Int)
  | str (s : String)
  | vnull
deriving DecidableEq, Repr

/-- A row of a read-query result.  Every query in the source selects a
single aggregate column aliased `total`. -/
structure Row where
  total : Value
deriving DecidableEq, Repr

/-- The read queries issued by the source, one constructor per SQL constant
(`COUNT_USERS`, `SUM_CONTENT_DAG_SIZE`, `COUNT_UPLOADS`,
`COUNT_UPLOADS_PER_TYPE` with its `$1` parameter, `COUNT_PINS`,
`COUNT_PINS_PER_STATUS` with its `$1` parameter, `COUNT_PIN_REQUESTS`). -/
inductive ReadQuery where
  | countUsers
  | sumContentDagSize
  | countUploads
  | countUploadsPerType (type : String)
  | countPins
  | countPinsPerStatus (status : String)
  | countPinRequests
deriving DecidableEq, Repr

/-- The read-only database handle `roPg`: an environment assigning to each
read query the row list that `roPg.query` resolves with. -/
def RoPg : Type := ReadQuery → List Row

/-- One execution of the `UPDATE_METRIC` upsert on the read-write database
`rwPg`: its `$1` (metric name) and `$2` (metric value) parameters. -/
structure Write where
  name : String
  value : Value
deriving DecidableEq, Repr

/-- The observable result of running one metric query function: the
`UPDATE_METRIC` writes it performed, in order, and the error it threw, if
any.  Writes performed before a later throw remain recorded, as they do on
the database. -/
structure QueryRun where
  writes : List Write
  thrown : Option String
deriving DecidableEq, Repr

/-- JavaScript `String(...)` coercion on the values a row can hold here
(`String(rows[0].total)` in the source): a number renders in decimal, a
string is unchanged, `null` renders as `"null"`. -/
def jsString : Value → String
  | Value.num n => toString n
  | Value.str s => s
  | Value.vnull => "null"

/-- JavaScript `String.prototype.toLowerCase()` restricted to the ASCII
range, which covers the upload-type and pin-status category names the
source lowercases. -/
def jsToLower (s : String) : String :=
  String.mk (s.data.map Char.toLower)

/-- JavaScript truthiness of the optional string option used in
`updateUploadsCount` / `updatePinsCount` (`if (type)`, `if (status)`):
`undefined` and the empty string are falsy, every other string truthy. -/
def truthyOpt : Option String → Option String
  | some t => if t = "" then none else some t
  | none => none

/-- `updateUsersCount` (source lines 82-86): read `COUNT_USERS`; zero rows
throws, otherwise upsert `users_total` with `rows[0].total`. -/
def updateUsersCount (roPg : RoPg) : QueryRun :=
  match roPg ReadQuery.countUsers with
  | [] => ⟨[], some "no rows returned counting users"⟩
  | row :: _ => ⟨[⟨"users_total", row.total⟩], none⟩

/-- `updateContentRootDagSizeSum` (source lines 92-96): read
`SUM_CONTENT_DAG_SIZE`; zero rows throws (with the source's copy-pasted
message), otherwise upsert `content_bytes_total` with
`String(rows[0].total)`. -/
def updateContentRootDagSizeSum (roPg : RoPg) : QueryRun :=
  match roPg ReadQuery.sumContentDagSize with
  | [] => ⟨[], some "no rows returned counting users"⟩
  | row :: _ => ⟨[⟨"content_bytes_total", Value.str (jsString row.total)⟩], none⟩

/-- `updateUploadsCount` (source lines 104-120): with a truthy `type`
option, read the per-type count and upsert `uploads_<type lowercased>_total`,
returning early; otherwise read the overall count and upsert
`uploads_total`.  Zero rows on the branch taken throws before any write. -/
def updateUploadsCount (roPg : RoPg) (opt : Option String) : QueryRun :=
  match truthyOpt opt with
  | some type =>
    match roPg (ReadQuery.countUploadsPerType type) with
    | [] => ⟨[], some ("no rows returned counting " ++ type ++ " uploads")⟩
    | row :: _ => ⟨[⟨"uploads_" ++ jsToLower type ++ "_total", row.total⟩], none⟩
  | none =>
    match roPg ReadQuery.countUploads with
    | [] => ⟨[], some "no rows returned counting uploads"⟩
    | row :: _ => ⟨[⟨"uploads_total", row.total⟩], none⟩

/-- `updatePinsCount` (source lines 128-148): with a truthy `status`
option, read the per-status count and upsert `pins_<status lowercased>_total`
(zero rows throws before that write); then — with no early return —
unconditionally read the overall `COUNT_PINS` and upsert `pins_total`
(zero rows throws, after any per-status write already performed). -/
def updatePinsCount (roPg : RoPg) (opt : Option String) : QueryRun :=
  let perStatus : QueryRun :=
    match truthyOpt opt with
    | some status =>
      match roPg (ReadQuery.countPinsPerStatus status) with
      | [] => ⟨[], some ("no rows returned counting " ++ status ++ " pins")⟩
      | row :: _ => ⟨[⟨"pins_" ++ jsToLower status ++ "_total", row.total⟩], none⟩
    | none => ⟨[], none⟩
  match perStatus.thrown with
  | some e => ⟨perStatus.writes, some e⟩
  | none =>
    match roPg ReadQuery.countPins with
    | [] => ⟨perStatus.writes, some "no rows returned counting pins"⟩
    | row :: _ => ⟨perStatus.writes ++ [⟨"pins_total", row.total⟩], none⟩

/-- `updatePinRequestsCount` (source lines 154-158): read
`COUNT_PIN_REQUESTS`; zero rows throws, otherwise upsert
`pin_requests_total`. -/
def updatePinRequestsCount (roPg : RoPg) : QueryRun :=
  match roPg ReadQuery.countPinRequests with
  | [] => ⟨[], some "no rows returned counting pin requests"⟩
  | row :: _ => ⟨[⟨"pin_requests_total", row.total⟩], none⟩

/-- A read environment on which every query returns zero rows. -/
def emptyRo : RoPg := fun _ => []

/-- A read environment on which every query returns the single row
`total = 3`. -/
def witnessRo : RoPg := fun _ => [⟨Value.num 3⟩]

/-- A JavaScript value as it occurs in the orchestration layer of the
source: rejection reasons (an `Error` object, or any other value a promise
was rejected with), fulfillment values, and the options object the source
places at the end of the array it hands to `settle`. -/
inductive JsVal where
  | undef
  | vnull
  | bool (b : Bool)
  | num (n : Int)
  | str (s : String)
  | err (message : String)
  | obj (concurrency : Nat)
deriving DecidableEq, Repr

/-- JavaScript truthiness: `undefined`, `null`, `false`, `0` and `""` are
falsy; `Error` objects and plain objects are truthy. -/
def truthy : JsVal → Bool
  | JsVal.undef => false
  | JsVal.vnull => false
  | JsVal.bool b => b
  | JsVal.num n => decide (n ≠ 0)
  | JsVal.str s => decide (s ≠ "")
  | JsVal.err _ => true
  | JsVal.obj _ => true

/-- JavaScript `a || b`: the first operand if truthy, otherwise the second
(the accumulation step `error = error || promise.reason` of the source's
reduction loop). -/
def jsOr (a b : JsVal) : JsVal :=
  if truthy a then a else b

/-- The settlement of one promise, as `p-settle` reports it: `isFulfilled`
with a value, or rejected with a `reason`. -/
inductive Outcome where
  | fulfilled (value : JsVal)
  | rejected (reason : JsVal)
deriving DecidableEq, Repr

/-- `promise.isFulfilled` on a settlement descriptor. -/
def Outcome.isFulfilled : Outcome → Bool
  | Outcome.fulfilled _ => true
  | Outcome.rejected _ => false

/-- One element of the array the source passes to `settle`.  In the source
(lines 46-65) every task element is a call `withTimeLog(label, fn)` — an
async function invocation, hence an already-started promise by the time the
array literal is complete — and the final element is the plain object
`concurrency: MAX_CONCURRENT_QUERIES` (a misplaced options argument, since
`settle` is called with this single array and nothing else). -/
inductive SettleElem where
  | startedPromise (settlement : Outcome)
  | plainValue (v : JsVal)
deriving DecidableEq, Repr

/-- The `p-settle` combinator as the source invokes it: called with one
array argument (so its optional second `options` parameter is absent and
no concurrency limiting can occur — and none could apply anyway, since the
task elements are promises already running, not thunks).  It waits for
every element and returns one settlement per element, in input order: a
promise element's own settlement, and, for a plain non-promise value, a
fulfilled settlement carrying that value. -/
def settle (elems : List SettleElem) : List Outcome :=
  elems.map fun e =>
    match e with
    | SettleElem.startedPromise r => r
    | SettleElem.plainValue v => Outcome.fulfilled v

/-- Modelled from the spec: `MAX_CONCURRENT_QUERIES`, `UPLOAD_TYPES` and
`PIN_STATUSES` are imported by the source from modules not present here;
the spec describes them as externally supplied configuration — a positive
integer concurrency limit and the two category lists. -/
structure Config where
  maxConcurrentQueries : Nat
  uploadTypes : List String
  pinStatuses : List String
deriving DecidableEq, Repr

/-- The labels of the metric tasks built in the array literal of
`updateMetrics` (source lines 47-63), in submission order: three fixed
tasks, one per upload type, the overall pins task, one per pin status, and
the pin-requests task. -/
def metricTaskLabels (cfg : Config) : List String :=
  ["updateUsersCount", "updateContentRootDagSizeSum", "updateUploadsCount"]
    ++ cfg.uploadTypes.map (fun t => "updateUploadsCount[" ++ t ++ "]")
    ++ ["updatePinsCount"]
    ++ cfg.pinStatuses.map (fun s => "updatePinsCount[" ++ s ++ "]")
    ++ ["updatePinRequestsCount"]

/-- The number of metric tasks one run of `updateMetrics` submits. -/
def numTasks (cfg : Config) : Nat :=
  (metricTaskLabels cfg).length

/-- The number of metric tasks in flight at discrete instant `t` of a run
whose tasks take `durs` steps each.  JavaScript evaluates the array literal
of lines 46-64 eagerly: each element expression calls `withTimeLog`, and
calling an async function runs its body at once up to its first `await`, so
every task has issued its first database query — is in flight — before
`settle` is even invoked, all within one synchronous turn.  Every task
therefore starts at instant 0, and a task of duration `d` is in flight
throughout instants `0, ..., d - 1`; nothing delays any task's start. -/
def tasksInFlight (durs : List Nat) (t : Nat) : Nat :=
  (durs.filter (fun d => t < d)).length

/-- The argument array of the `settle` call in `updateMetrics` (lines
46-65): one already-started promise per metric task — `taskResults`
giving each task's eventual settlement, indexed in submission order —
followed by the misplaced options object as a final plain element. -/
def settleArgument (cfg : Config) (taskResults : List Outcome) : List SettleElem :=
  taskResults.map SettleElem.startedPromise
    ++ [SettleElem.plainValue (JsVal.obj cfg.maxConcurrentQueries)]

/-- The `results` array `updateMetrics` obtains from `settle`. -/
def updateMetricsResults (cfg : Config) (taskResults : List Outcome) : List Outcome :=
  settle (settleArgument cfg taskResults)

/-- One iteration of the reduction loop of lines 67-72 as it affects the
`error` accumulator: fulfilled settlements are skipped (`continue`);
rejected ones contribute `error = error || promise.reason`. -/
def errorStep (e : JsVal) (o : Outcome) : JsVal :=
  match o with
  | Outcome.fulfilled _ => e
  | Outcome.rejected r => jsOr e r

/-- The value of the `error` variable after the reduction loop: it starts
as `undefined` (`let error`) and is folded over the settlements in order. -/
def finalError (results : List Outcome) : JsVal :=
  results.foldl errorStep JsVal.undef

/-- The `console.error(promise.reason)` emissions of the reduction loop,
in order: one per rejected settlement. -/
def consoleErrors (results : List Outcome) : List JsVal :=
  results.filterMap fun o =>
    match o with
    | Outcome.fulfilled _ => none
    | Outcome.rejected r => some r

/-- The observable result of one run of `updateMetrics`: whether it threw
(and what), the `console.error` stream, and the `debug` log stream. -/
structure MetricsRun where
  outcome : Except JsVal Unit
  errorLog : List JsVal
  debugLog : List String
deriving Repr

/-- `updateMetrics` (source lines 45-76) downstream of the task
settlements: settle the argument array, loop over the results logging
every rejection reason and accumulating `error = error || reason`, then
`if (error) throw error`, else log the completion marker. -/
def updateMetrics (cfg : Config) (taskResults : List Outcome) : MetricsRun :=
  let results := updateMetricsResults cfg taskResults
  let error := finalError results
  { outcome := if truthy error then Except.error error else Except.ok ()
    errorLog := consoleErrors results
    debugLog := if truthy error then [] else ["✅ Done"] }

/-- `withTimeLog` (source lines 166-173): record the start instant, run
the thunk, and — in a `finally` clause, hence on the return path and the
throw path alike — emit one log line with the task name and the elapsed
time.  The thunk is modelled as producing its result (value or thrown
error) together with the instant at which it completes. -/
def withTimeLog (name : String) (fn : Unit → Except JsVal JsVal × Nat)
    (start : Nat) : Except JsVal JsVal × List String :=
  match fn () with
  | (Except.ok v, finish) =>
    (Except.ok v, [name ++ " took: " ++ toString (finish - start) ++ "ms"])
  | (Except.error e, finish) =>
    (Except.error e, [name ++ " took: " ++ toString (finish - start) ++ "ms"])

/-- A concrete configuration: concurrency limit 4, one upload type, one
pin status — hence 5 + 1 + 1 = 7 metric tasks. -/
def bugConfig : Config := ⟨4, ["Car"], ["Pinned"]⟩

/-- Task durations for a run under `bugConfig`: every task takes one
step. -/
def bugDurs : List Nat := List.replicate (numTasks bugConfig) 1

/-- A run with five tasks whose first rejection reason is falsy
(`undefined`) and whose second is a truthy `Error`. -/
def c3Run : List Outcome :=
  [Outcome.rejected JsVal.undef, Outcome.rejected (JsVal.err "boom"),
   Outcome.fulfilled JsVal.undef, Outcome.fulfilled JsVal.undef,
   Outcome.fulfilled JsVal.undef]

/-- A per-status pins metric name can never collide with the overall
`pins_total` name: it is strictly longer whatever the status string. -/
theorem pins_per_status_name_ne (x : String) :
    "pins_" ++ x ++ "_total" ≠ "pins_total" := by
  intro h
  have hl := congrArg String.length h
  rw [String.length_append, String.length_append] at hl
  have h1 : String.length "pins_" = 5 := rfl
  have h2 : String.length "_total" = 6 := rfl
  have h3 : String.length "pins_total" = 10 := rfl
  omega

/-- A per-type uploads metric name can never collide with the overall
`uploads_total` name: it is strictly longer whatever the type string. -/
theorem uploads_per_type_name_ne (x : String) :
    "uploads_" ++ x ++ "_total" ≠ "uploads_total" := by
  intro h
  have hl := congrArg String.length h
  rw [String.length_append, String.length_append] at hl
  have h1 : String.length "uploads_" = 8 := rfl
  have h2 : String.length "_total" = 6 := rfl
  have h3 : String.length "uploads_total" = 13 := rfl
  omega

/-- C5: every metric query function, handed a read result of zero rows for
the query it is issuing, throws an error and performs no write for the
metric that query was computing.  For `updatePinsCount` both reads are
covered: a zero-row per-status read throws before any write, and a
zero-row overall read throws with no `pins_total` write (whatever writes
the earlier per-status upsert performed). -/
theorem zero_rows_throw_without_write (roPg : RoPg) (t s : String)
    (opt : Option String) (ht : t ≠ "") (hs : s ≠ "") :
    (roPg ReadQuery.countUsers = [] →
      (updateUsersCount roPg).thrown.isSome = true
        ∧ (updateUsersCount roPg).writes = [])
    ∧ (roPg ReadQuery.sumContentDagSize = [] →
      (updateContentRootDagSizeSum roPg).thrown.isSome = true
        ∧ (updateContentRootDagSizeSum roPg).writes = [])
    ∧ (roPg ReadQuery.countUploads = [] →
      (updateUploadsCount roPg none).thrown.isSome = true
        ∧ (updateUploadsCount roPg none).writes = [])
    ∧ (roPg (ReadQuery.countUploadsPerType t) = [] →
      (updateUploadsCount roPg (some t)).thrown.isSome = true
        ∧ (updateUploadsCount roPg (some t)).writes = [])
    ∧ (roPg (ReadQuery.countPinsPerStatus s) = [] →
      (updatePinsCount roPg (some s)).thrown.isSome = true
        ∧ (updatePinsCount roPg (some s)).writes = [])
    ∧ (roPg ReadQuery.countPins = [] →
      (updatePinsCount roPg opt).thrown.isSome = true
        ∧ ∀ w ∈ (updatePinsCount roPg opt).writes, w.name ≠ "pins_total")
    ∧ (roPg ReadQuery.countPinRequests = [] →
      (updatePinRequestsCount roPg).thrown.isSome = true
        ∧ (updatePinRequestsCount roPg).writes = []) := by
  refine ⟨?_, ?_, ?_, ?_, ?_, ?_, ?_⟩
  · intro h
    simp [updateUsersCount, h]
  · intro h
    simp [updateContentRootDagSizeSum, h]
  · intro h
    simp [updateUploadsCount, truthyOpt, h]
  · intro h
    simp [updateUploadsCount, truthyOpt, ht, h]
  · intro h
    simp [updatePinsCount, truthyOpt, hs, h]
  · intro h
    match hopt : truthyOpt opt with
    | none =>
      simp [updatePinsCount, hopt, h]
    | some status =>
      match hrows : roPg (ReadQuery.countPinsPerStatus status) with
      | [] => simp [updatePinsCount, hopt, hrows, h]
      | row :: rest =>
        refine ⟨by simp [updatePinsCount, hopt, hrows, h], ?_⟩
        intro w hw
        have hwmem : w ∈ [Write.mk ("pins_" ++ jsToLower status ++ "_total") row.total] := by
          simpa [updatePinsCount, hopt, hrows, h] using hw
        have hweq := List.eq_of_mem_singleton hwmem
        rw [hweq]
        exact pins_per_status_name_ne (jsToLower status)
  · intro h
    simp [updatePinRequestsCount, h]

/-- C5 witness: on a read environment returning zero rows everywhere, the
users count task throws with no write and so does the per-status pins
task. -/
theorem zero_rows_throw_without_write_witness :
    ((updateUsersCount emptyRo).thrown.isSome = true
      ∧ (updateUsersCount emptyRo).writes = [])
    ∧ ((updatePinsCount emptyRo (some "Pinned")).thrown.isSome = true
      ∧ (updatePinsCount emptyRo (some "Pinned")).writes = []) := by
  have h := zero_rows_throw_without_write emptyRo "Nft" "Pinned" none
    (by decide) (by decide)
  exact ⟨h.1 rfl, h.2.2.2.2.1 rfl⟩

/-- C6: the per-type uploads metric name is exactly
`uploads_<type lowercased>_total` and the per-status pins metric name is
exactly `pins_<status lowercased>_total` (the first write the pins task
performs). -/
theorem category_metric_names (roPg : RoPg) (t s : String)
    (ht : t ≠ "") (hs : s ≠ "") (rowT : Row) (restT : List Row)
    (rowS : Row) (restS : List Row)
    (hT : roPg (ReadQuery.countUploadsPerType t) = rowT :: restT)
    (hS : roPg (ReadQuery.countPinsPerStatus s) = rowS :: restS) :
    (updateUploadsCount roPg (some t)).writes
      = [⟨"uploads_" ++ jsToLower t ++ "_total", rowT.total⟩]
    ∧ (updatePinsCount roPg (some s)).writes.head?
      = some ⟨"pins_" ++ jsToLower s ++ "_total", rowS.total⟩ := by
  constructor
  · simp [updateUploadsCount, truthyOpt, ht, hT]
  · match hrows : roPg ReadQuery.countPins with
    | [] => simp [updatePinsCount, truthyOpt, hs, hS, hrows]
    | row :: rest => simp [updatePinsCount, truthyOpt, hs, hS, hrows]

/-- C6 witness: type `Nft` publishes `uploads_nft_total` and status
`Pinned` publishes `pins_pinned_total` first. -/
theorem category_metric_names_witness :
    (updateUploadsCount witnessRo (some "Nft")).writes
      = [⟨"uploads_nft_total", Value.num 3⟩]
    ∧ (updatePinsCount witnessRo (some "Pinned")).writes.head?
      = some ⟨"pins_pinned_total", Value.num 3⟩ := by
  have h := category_metric_names witnessRo "Nft" "Pinned" (by decide) (by decide)
    ⟨Value.num 3⟩ [] ⟨Value.num 3⟩ [] rfl rfl
  have e1 : "uploads_" ++ jsToLower "Nft" ++ "_total" = "uploads_nft_total" := by decide
  have e2 : "pins_" ++ jsToLower "Pinned" ++ "_total" = "pins_pinned_total" := by decide
  exact ⟨by rw [h.1, e1], by rw [h.2, e2]⟩

/-- C7: a successful per-status pins run performs exactly two writes — the
per-status upsert first, then the unconditional requery-and-upsert of
`pins_total` — while a per-type uploads run performs exactly one write,
whose name is never `uploads_total`. -/
theorem pins_requery_total_uploads_single_write (roPg : RoPg) (t s : String)
    (ht : t ≠ "") (hs : s ≠ "") (rowS : Row) (restS : List Row)
    (rowP : Row) (restP : List Row) (rowT : Row) (restT : List Row)
    (hS : roPg (ReadQuery.countPinsPerStatus s) = rowS :: restS)
    (hP : roPg ReadQuery.countPins = rowP :: restP)
    (hT : roPg (ReadQuery.countUploadsPerType t) = rowT :: restT) :
    updatePinsCount roPg (some s)
      = ⟨[⟨"pins_" ++ jsToLower s ++ "_total", rowS.total⟩,
          ⟨"pins_total", rowP.total⟩], none⟩
    ∧ (updateUploadsCount roPg (some t)).writes.length = 1
    ∧ ∀ w ∈ (updateUploadsCount roPg (some t)).writes,
        w.name ≠ "uploads_total" := by
  refine ⟨by simp [updatePinsCount, truthyOpt, hs, hS, hP], ?_, ?_⟩
  · simp [updateUploadsCount, truthyOpt, ht, hT]
  · intro w hw
    have hwmem : w ∈ [Write.mk ("uploads_" ++ jsToLower t ++ "_total") rowT.total] := by
      simpa [updateUploadsCount, truthyOpt, ht, hT] using hw
    have hweq := List.eq_of_mem_singleton hwmem
    rw [hweq]
    exact uploads_per_type_name_ne (jsToLower t)

/-- C7 witness: with one row of `total = 3` on every read, status `Pinned`
writes `pins_pinned_total` then `pins_total`, and type `Nft` performs one
write that is not `uploads_total`. -/
theorem pins_requery_total_uploads_single_write_witness :
    updatePinsCount witnessRo (some "Pinned")
      = ⟨[⟨"pins_pinned_total", Value.num 3⟩, ⟨"pins_total", Value.num 3⟩], none⟩
    ∧ (updateUploadsCount witnessRo (some "Nft")).writes.length = 1 := by
  have h := pins_requery_total_uploads_single_write witnessRo "Nft" "Pinned"
    (by decide) (by decide) ⟨Value.num 3⟩ [] ⟨Value.num 3⟩ [] ⟨Value.num 3⟩ []
    rfl rfl rfl
  have e2 : "pins_" ++ jsToLower "Pinned" ++ "_total" = "pins_pinned_total" := by decide
  refine ⟨?_, h.2.1⟩
  rw [h.1, e2]

/-- C9: whenever the content dag-size sum read returns at least one row,
`updateContentRootDagSizeSum` publishes `content_bytes_total` with the
value coerced to its string form (`String(rows[0].total)`, decimal for a
number), and throws nothing. -/
theorem content_bytes_total_written_as_string (roPg : RoPg) (row : Row)
    (rest : List Row)
    (h : roPg ReadQuery.sumContentDagSize = row :: rest) :
    updateContentRootDagSizeSum roPg
      = ⟨[⟨"content_bytes_total", Value.str (jsString row.total)⟩], none⟩ := by
  simp [updateContentRootDagSizeSum, h]

/-- C9 witness: a numeric sum of 3 is published as the decimal string
`"3"`. -/
theorem content_bytes_total_written_as_string_witness :
    updateContentRootDagSizeSum witnessRo
      = ⟨[⟨"content_bytes_total", Value.str "3"⟩], none⟩ := by
  have h := content_bytes_total_written_as_string witnessRo ⟨Value.num 3⟩ [] rfl
  have e : jsString (Value.num 3) = "3" := by decide
  rw [h, e]

/-- The results array is exactly the task settlements in submission order
followed by one extra fulfilled entry for the misplaced options object. -/
theorem updateMetricsResults_eq (cfg : Config) (rs : List Outcome) :
    updateMetricsResults cfg rs
      = rs ++ [Outcome.fulfilled (JsVal.obj cfg.maxConcurrentQueries)] := by
  simp only [updateMetricsResults, settle, settleArgument, List.map_append,
    List.map_map, List.map_cons, List.map_nil]
  congr 1
  exact List.map_id rs

theorem consoleErrors_cons_fulfilled (v : JsVal) (rest : List Outcome) :
    consoleErrors (Outcome.fulfilled v :: rest) = consoleErrors rest := by
  simp [consoleErrors]

theorem consoleErrors_cons_rejected (r : JsVal) (rest : List Outcome) :
    consoleErrors (Outcome.rejected r :: rest) = r :: consoleErrors rest := by
  simp [consoleErrors]

/-- The extra fulfilled entry contributes nothing to the rejection
reasons: the results array has the same `console.error` stream as the
task settlements themselves. -/
theorem consoleErrors_updateMetricsResults (cfg : Config) (rs : List Outcome) :
    consoleErrors (updateMetricsResults cfg rs) = consoleErrors rs := by
  rw [updateMetricsResults_eq]
  simp [consoleErrors, List.filterMap_append]

/-- The error accumulation ignores fulfilled settlements, so it is the
`jsOr` fold over the rejection reasons alone. -/
theorem foldl_errorStep_eq (rs : List Outcome) :
    ∀ a : JsVal, rs.foldl errorStep a = (consoleErrors rs).foldl jsOr a := by
  induction rs with
  | nil => intro a; rfl
  | cons o rest ih =>
    intro a
    cases o with
    | fulfilled v =>
      rw [List.foldl_cons, consoleErrors_cons_fulfilled]
      exact ih a
    | rejected r =>
      rw [List.foldl_cons, consoleErrors_cons_rejected, List.foldl_cons]
      exact ih (jsOr a r)

theorem finalError_eq (results : List Outcome) :
    finalError results = (consoleErrors results).foldl jsOr JsVal.undef :=
  foldl_errorStep_eq results JsVal.undef

/-- A truthy accumulator absorbs the whole `jsOr` fold. -/
theorem foldl_jsOr_of_truthy (rs : List JsVal) :
    ∀ a : JsVal, truthy a = true → rs.foldl jsOr a = a := by
  induction rs with
  | nil => intro a _; rfl
  | cons r rest ih =>
    intro a ha
    have hstep : jsOr a r = a := by simp [jsOr, ha]
    rw [List.foldl_cons, hstep]
    exact ih a ha

/-- Starting falsy, the `jsOr` fold lands on the first truthy element. -/
theorem foldl_jsOr_of_find_some (rs : List JsVal) :
    ∀ a : JsVal, truthy a = false → ∀ v, rs.find? truthy = some v →
      rs.foldl jsOr a = v := by
  induction rs with
  | nil => intro a _ v hv; simp at hv
  | cons r rest ih =>
    intro a ha v hv
    have hstep : jsOr a r = r := by simp [jsOr, ha]
    rw [List.foldl_cons, hstep]
    by_cases hr : truthy r = true
    · rw [List.find?_cons_of_pos _ hr] at hv
      have hv2 : r = v := by injection hv
      subst hv2
      exact foldl_jsOr_of_truthy rest r hr
    · have hrf : truthy r = false := by simpa using hr
      rw [List.find?_cons_of_neg _ (by simp [hrf])] at hv
      exact ih r hrf v hv

/-- Starting falsy with no truthy element anywhere, the `jsOr` fold stays
falsy. -/
theorem foldl_jsOr_of_find_none (rs : List JsVal) :
    ∀ a : JsVal, truthy a = false → rs.find? truthy = none →
      truthy (rs.foldl jsOr a) = false := by
  induction rs with
  | nil => intro a ha _; simpa using ha
  | cons r rest ih =>
    intro a ha h
    rw [List.find?_eq_none] at h
    have hr : truthy r = false := by simpa using h r (by simp)
    have hstep : jsOr a r = r := by simp [jsOr, ha]
    rw [List.foldl_cons, hstep]
    apply ih r hr
    rw [List.find?_eq_none]
    intro x hx
    exact h x (by simp [hx])

theorem finalError_of_find_some (results : List Outcome) (e : JsVal)
    (h : (consoleErrors results).find? truthy = some e) :
    finalError results = e ∧ truthy e = true := by
  refine ⟨?_, List.find?_some h⟩
  rw [finalError_eq]
  exact foldl_jsOr_of_find_some _ JsVal.undef rfl e h

theorem finalError_of_find_none (results : List Outcome)
    (h : (consoleErrors results).find? truthy = none) :
    truthy (finalError results) = false := by
  rw [finalError_eq]
  exact foldl_jsOr_of_find_none _ JsVal.undef rfl h

/-- C1: refuted on the code.  The source evaluates every
`withTimeLog(...)` call while building the array literal, starting all
tasks before `settle` runs, and passes the concurrency option as an array
element rather than as an options argument, so nothing enforces the cap:
in a run with 7 tasks under a limit of 4, all 7 tasks are in flight at
instant 0. -/
theorem updateMetrics_concurrency_exceeds_cap :
    1 ≤ bugConfig.maxConcurrentQueries
    ∧ bugDurs.length = numTasks bugConfig
    ∧ bugConfig.maxConcurrentQueries < tasksInFlight bugDurs 0 := by decide

/-- C2: refuted on the code.  The settled results list the reduction loop
iterates has one entry more than there are metric tasks: the misplaced
`concurrency` options object is itself settled, as a trailing fulfilled
outcome. -/
theorem updateMetrics_results_extra_entry :
    (updateMetricsResults bugConfig
        (List.replicate (numTasks bugConfig) (Outcome.fulfilled JsVal.undef))).length
      = numTasks bugConfig + 1
    ∧ (updateMetricsResults bugConfig
        (List.replicate (numTasks bugConfig) (Outcome.fulfilled JsVal.undef))).getLast?
      = some (Outcome.fulfilled (JsVal.obj bugConfig.maxConcurrentQueries))
    ∧ numTasks bugConfig + 1 ≠ numTasks bugConfig := by decide

/-- C4: no task's settlement is dropped or displaced by failures
elsewhere: whatever the settlements are — rejections included — each
submitted task's own settlement appears at its submission index in the
results the reduction reads, which cover all submitted tasks. -/
theorem updateMetrics_no_abort_on_failure (cfg : Config)
    (taskResults : List Outcome) (i : Nat) (h : i < taskResults.length) :
    (updateMetricsResults cfg taskResults)[i]? = taskResults[i]?
    ∧ taskResults.length ≤ (updateMetricsResults cfg taskResults).length := by
  rw [updateMetricsResults_eq]
  constructor
  · rw [List.getElem?_append, if_pos h]
  · simp

/-- C4 witness: task A rejects immediately, yet task B's fulfilled
settlement is still present at its own index. -/
theorem updateMetrics_no_abort_on_failure_witness :
    (updateMetricsResults ⟨4, ["Car"], ["Pinned"]⟩
        [Outcome.rejected (JsVal.err "A failed"), Outcome.fulfilled JsVal.undef])[1]?
      = some (Outcome.fulfilled JsVal.undef)
    ∧ 2 ≤ (updateMetricsResults ⟨4, ["Car"], ["Pinned"]⟩
        [Outcome.rejected (JsVal.err "A failed"), Outcome.fulfilled JsVal.undef]).length := by
  have h := updateMetrics_no_abort_on_failure ⟨4, ["Car"], ["Pinned"]⟩
    [Outcome.rejected (JsVal.err "A failed"), Outcome.fulfilled JsVal.undef] 1
    (by decide)
  refine ⟨?_, h.2⟩
  rw [h.1]
  rfl

/-- C3 counterexample: in a run of the right shape (five tasks, no
category variants) whose first rejection reason is `undefined`,
`updateMetrics` does not throw the first rejected outcome's reason — it
throws the later `Error` instead, because `error = error || reason` skips
falsy reasons. -/
theorem updateMetrics_first_rejection_not_propagated :
    c3Run.length = numTasks ⟨4, [], []⟩
    ∧ (consoleErrors c3Run).head? = some JsVal.undef
    ∧ (updateMetrics ⟨4, [], []⟩ c3Run).outcome = Except.error (JsVal.err "boom")
    ∧ JsVal.err "boom" ≠ JsVal.undef := by
  refine ⟨by decide, by decide, rfl, by decide⟩

/-- C3 (amended): when some rejection reason is truthy, `updateMetrics`
throws the first truthy rejection reason in submission order — a reason
that was itself logged — and every rejection reason is emitted to the
error log; when there are no rejections at all, it throws nothing and
logs the completion marker. -/
theorem updateMetrics_error_reporting (cfg : Config)
    (taskResults : List Outcome) :
    (∀ e, (consoleErrors taskResults).find? truthy = some e →
      (updateMetrics cfg taskResults).outcome = Except.error e
        ∧ e ∈ consoleErrors taskResults
        ∧ (updateMetrics cfg taskResults).errorLog = consoleErrors taskResults)
    ∧ (consoleErrors taskResults = [] →
      (updateMetrics cfg taskResults).outcome = Except.ok ()
        ∧ (updateMetrics cfg taskResults).debugLog = ["✅ Done"]) := by
  have hce := consoleErrors_updateMetricsResults cfg taskResults
  constructor
  · intro e he
    obtain ⟨hfe, ht⟩ :=
      finalError_of_find_some (updateMetricsResults cfg taskResults) e
        (by rw [hce]; exact he)
    exact ⟨by simp [updateMetrics, hfe, ht], List.mem_of_find?_eq_some he,
      by simp [updateMetrics, hce]⟩
  · intro hnil
    have hnone : (consoleErrors taskResults).find? truthy = none := by
      simp [hnil]
    have hf := finalError_of_find_none (updateMetricsResults cfg taskResults)
      (by rw [hce]; exact hnone)
    exact ⟨by simp [updateMetrics, hf], by simp [updateMetrics, hf]⟩

/-- C3 witness: on the five-task run above, the first truthy reason
`Error("boom")` is thrown and the error log carries both rejection
reasons. -/
theorem updateMetrics_error_reporting_witness :
    (updateMetrics ⟨4, [], []⟩ c3Run).outcome = Except.error (JsVal.err "boom")
    ∧ (updateMetrics ⟨4, [], []⟩ c3Run).errorLog
      = [JsVal.undef, JsVal.err "boom"] := by
  have h := (updateMetrics_error_reporting ⟨4, [], []⟩ c3Run).1
    (JsVal.err "boom") (by decide)
  refine ⟨h.1, ?_⟩
  rw [h.2.2]
  decide

/-- C10: the throw behaviour of `updateMetrics` is exactly: find the first
truthy rejection reason in submission order and throw it, or complete
normally when every rejection reason (if any) is falsy; the error log
always carries every rejection reason in submission order. -/
theorem updateMetrics_throws_iff_first_truthy_reason (cfg : Config)
    (taskResults : List Outcome) :
    (updateMetrics cfg taskResults).outcome
      = (match (consoleErrors taskResults).find? truthy with
         | some e => Except.error e
         | none => Except.ok ())
    ∧ (updateMetrics cfg taskResults).errorLog = consoleErrors taskResults := by
  have hce := consoleErrors_updateMetricsResults cfg taskResults
  constructor
  · cases h : (consoleErrors taskResults).find? truthy with
    | some e =>
      obtain ⟨hfe, ht⟩ :=
        finalError_of_find_some (updateMetricsResults cfg taskResults) e
          (by rw [hce]; exact h)
      simp [updateMetrics, hfe, ht]
    | none =>
      have hf := finalError_of_find_none (updateMetricsResults cfg taskResults)
        (by rw [hce]; exact h)
      simp [updateMetrics, hf]
  · simp [updateMetrics, hce]

/-- C8: `withTimeLog` emits exactly one timing log line — the task name
with the elapsed time — whether the thunk resolves or rejects, and passes
the thunk's result through untouched: the resolved value unchanged, or
exactly the thrown error. -/
theorem withTimeLog_logs_once_and_is_transparent (name : String)
    (fn : Unit → Except JsVal JsVal × Nat) (start : Nat) :
    (withTimeLog name fn start).2
      = [name ++ " took: " ++ toString ((fn ()).2 - start) ++ "ms"]
    ∧ (withTimeLog name fn start).1 = (fn ()).1 := by
  rcases h : fn () with ⟨r, finish⟩
  cases r with
  | ok v => simp [withTimeLog, h]
  | error e => simp [withTimeLog, h]

end Metrics
